import Mathlib

set_option maxRecDepth 100000

/-!
# Verification of the UOB FAST/GIRO record encoder

Shallow embedding of the record encoder and checksum engine of
`src/convert_to_uob.py` and `src/app.py` (yjsoon/sof-uob-converter).

Strings are modelled as lists of ASCII codes (`List Nat`); every character
the program handles is ASCII.  Python floats are modelled exactly as
nonnegative binary64 values `m * 2^e` with round-to-nearest, ties-to-even
implemented over `Nat`.  Pandas dataframes are modelled as lists of rows
paired with their original 0-based index labels (the default `RangeIndex`
produced by `read_excel`).
-/

namespace UOB

/-- ASCII codes of a string literal. -/
def ascii (s : String) : List Nat := s.data.map Char.toNat

/-- CRLF line terminator appended after every record. -/
def crlf : List Nat := [13, 10]

/-- Python slice `l[a:b]` for `a ≤ b`. -/
def pySlice (l : List Nat) (a b : Nat) : List Nat := (l.drop a).take (b - a)

/-- `pad_right` (convert_to_uob.py:25): truncate to `n` characters, then
 right-pad with spaces to exactly `n`. -/
def pad_right (text : List Nat) (n : Nat) : List Nat :=
  text.take n ++ List.replicate (n - text.length) 32

/-- Big-endian decimal digit values of `n` (empty for 0); fuelled recursion,
 any fuel `≥ n` computes the digits. -/
def digitsAux : Nat → Nat → List Nat
  | 0, _ => []
  | fuel + 1, n => if n = 0 then [] else digitsAux fuel (n / 10) ++ [n % 10]

def digitsB (n : Nat) : List Nat := digitsAux n n

/-- Python `str()` of a non-negative integer, as ASCII codes. -/
def natStr (n : Nat) : List Nat :=
  if n = 0 then [48] else (digitsB n).map (fun d => d + 48)

/-- Python `str.zfill(w)`: left-pad with `'0'` to length `w` (never truncates). -/
def zfill (w : Nat) (s : List Nat) : List Nat :=
  List.replicate (w - s.length) 48 ++ s

/-- `pad_left_zero` (convert_to_uob.py:32): `str(int(number)).zfill(length)`. -/
def pad_left_zero (number w : Nat) : List Nat := zfill w (natStr number)

/-- Value of a decimal-digit ASCII string (used to state that zero padding
 never corrupts the encoded integer). -/
def decDigits (s : List Nat) : Nat := s.foldl (fun a c => a * 10 + (c - 48)) 0

/-! ## Exact binary64 model

The program converts amounts with `int(float(amount) * 100)`
(convert_to_uob.py:39).  We model nonnegative binary64 values exactly as
`m * 2^e` and implement IEEE-754 round-to-nearest, ties-to-even at 53
significant bits over `Nat`/`Int` arithmetic. -/

/-- A nonnegative binary64 value `m * 2^e` (`m` the integer significand). -/
structure FVal where
  m : Nat
  e : Int
deriving DecidableEq

/-- Floor of `log2 n`, fuelled (any fuel `≥ n` is exact for `n ≥ 1`). -/
def log2fuel : Nat → Nat → Nat
  | 0, _ => 0
  | fuel + 1, n => if n ≤ 1 then 0 else log2fuel fuel (n / 2) + 1

/-- Ceiling of `log2 c` for `c ≥ 1`. -/
def clog2 (c : Nat) : Nat := if c ≤ 1 then 0 else log2fuel (c - 1) (c - 1) + 1

/-- Floor of `log2 (n / d)` for positive `n`, `d`. -/
def ratFloorLog2 (n d : Nat) : Int :=
  if d ≤ n then (log2fuel n (n / d) : Int)
  else -(clog2 ((d + n - 1) / n) : Int)

/-- Round `n / d` (`n, d > 0`) to 53 significant bits,
 round-to-nearest ties-to-even. -/
def rne53 (n d : Nat) : FVal :=
  let j : Int := 52 - ratFloorLog2 n d
  let N : Nat := if 0 ≤ j then n * 2 ^ j.toNat else n
  let D : Nat := if 0 ≤ j then d else d * 2 ^ (-j).toNat
  let q := N / D
  let r := N % D
  let m := if 2 * r < D then q
           else if D < 2 * r then q + 1
           else if q % 2 = 0 then q else q + 1
  ⟨m, -j⟩

/-- The binary64 value nearest to the decimal fraction `n / d`
 (normal range; this is the double a Python literal or Excel cell holds). -/
def floatOfDec (n d : Nat) : FVal := if n = 0 then ⟨0, 0⟩ else rne53 n d

/-- Round the exact value `N * 2^e` to binary64. -/
def fRound (N : Nat) (e : Int) : FVal :=
  if N = 0 then ⟨0, 0⟩
  else if 0 ≤ e then rne53 (N * 2 ^ e.toNat) 1
  else rne53 N (2 ^ (-e).toNat)

/-- binary64 multiplication by the exactly representable constant 100. -/
def fmul100 (x : FVal) : FVal := fRound (x.m * 100) x.e

/-- binary64 addition of nonnegative values. -/
def fadd (x y : FVal) : FVal :=
  let e := min x.e y.e
  fRound (x.m * 2 ^ (x.e - e).toNat + y.m * 2 ^ (y.e - e).toNat) e

/-- Python `int()` truncation of a nonnegative binary64 value. -/
def ftrunc (x : FVal) : Nat :=
  if 0 ≤ x.e then x.m * 2 ^ x.e.toNat else x.m / 2 ^ (-x.e).toNat

def fzero : FVal := ⟨0, 0⟩

/-- `format_amount` (convert_to_uob.py:36): `int(float(amount) * 100)`
 then `zfill(18)`. -/
def format_amount (amount : FVal) : List Nat :=
  pad_left_zero (ftrunc (fmul100 amount)) 18

/-! ## Checksum engine (convert_to_uob.py:42-108) -/

/-- `compute_field_check_summary`: the loop over
 `range(min(len(field_value), hash_index))` accumulating
 `(i + 1) * ord(field_value[i])`. -/
def compute_field_check_summary (field_value : List Nat) (hash_index : Nat) : Nat :=
  (List.range (min field_value.length hash_index)).foldl
    (fun total i => total + (i + 1) * field_value.getD i 0) 0

/-- Payment code from the header's payment-type byte
 (`'P'` = 80 → 20, `'R'` = 82 → 22, else 30). -/
def payment_code_of (payment_type : Nat) : Nat :=
  if payment_type = 80 then 20 else if payment_type = 82 then 22 else 30

/-- The `hash_code` update at the top of the detail loop
 (convert_to_uob.py:80-83). -/
def hashStep (h : Nat) : Nat := if h = 9 then 1 else h + 1

/-- Contribution of one detail record given the payment code and the
 current (already updated) `hash_code` (convert_to_uob.py:85-102). -/
def detailContribution (payment_code hash_code : Nat) (record : List Nat) : Nat :=
  compute_field_check_summary (pySlice record 7 18) 11
    + compute_field_check_summary (pySlice record 18 52) 34 * hash_code
    + compute_field_check_summary (pySlice record 52 192) 140 * hash_code
    + compute_field_check_summary (pySlice record 186 189) 3
    + compute_field_check_summary (pySlice record 189 207) 18
    + compute_field_check_summary (pySlice record 277 281) 4
    + payment_code * hash_code

/-- The `for record in detail_records` loop carrying the rotating
 `hash_code` accumulator. -/
def detailLoop (payment_code : Nat) : Nat → List (List Nat) → Nat
  | _, [] => 0
  | hash_code, record :: rest =>
    detailContribution payment_code (hashStep hash_code) record
      + detailLoop payment_code (hashStep hash_code) rest

/-- `total1` of `calculate_hash_total`: the header field check summaries. -/
def headerTotal (header_record : List Nat) : Nat :=
  compute_field_check_summary (pySlice header_record 35 46) 11
    + compute_field_check_summary (pySlice header_record 49 83) 34
    + compute_field_check_summary (pySlice header_record 83 223) 140

/-- `final_check_sum` (convert_to_uob.py:105). -/
def finalSum (header_record : List Nat) (detail_records : List (List Nat)) : Nat :=
  headerTotal header_record
    + detailLoop (payment_code_of (header_record.getD 11 0)) 0 detail_records

/-- Python `s[-n:]`. -/
def lastTake (n : Nat) (l : List Nat) : List Nat := l.drop (l.length - n)

/-- `calculate_hash_total` (convert_to_uob.py:50-108):
 `str(final_check_sum)[-16:].zfill(16)`. -/
def calculate_hash_total (header_record : List Nat)
    (detail_records : List (List Nat)) : List Nat :=
  zfill 16 (lastTake 16 (natStr (finalSum header_record detail_records)))

/-! ## Record builders -/

/-- `create_header_record` (convert_to_uob.py:110-134).  Note that the two
 date strings are appended raw, without padding. -/
def create_header_record (file_name creation_date_long value_date : List Nat) :
    List Nat :=
  (ascii "1"
    ++ pad_right (file_name.take 10) 10
    ++ ascii "P"
    ++ pad_right (ascii "NORMAL") 10
    ++ ascii "I"
    ++ pad_right [] 12
    ++ pad_right (ascii "UOVBSGSGXXX") 11
    ++ ascii "SGD"
    ++ pad_right (ascii "3663050778") 34
    ++ pad_right (ascii "SINGAPORE OLYMPIC FOUNDATION") 140
    ++ creation_date_long
    ++ value_date
    ++ pad_right [] 140
    ++ pad_right (ascii "SOFPLSAWARD") 16
    ++ pad_right [] 10
    ++ pad_right [] 105
    ++ pad_right [] 105
    ++ pad_right [] 440).take 1055

/-- `create_header_record_custom` (app.py:24-52). -/
def create_header_record_custom
    (file_name creation_date_long value_date org_name org_account org_bic
      customer_ref : List Nat) (processing_mode : Nat) : List Nat :=
  (ascii "1"
    ++ pad_right (file_name.take 10) 10
    ++ ascii "P"
    ++ pad_right (ascii "NORMAL") 10
    ++ [processing_mode]
    ++ pad_right [] 12
    ++ pad_right org_bic 11
    ++ ascii "SGD"
    ++ pad_right org_account 34
    ++ pad_right org_name 140
    ++ creation_date_long
    ++ value_date
    ++ pad_right [] 140
    ++ pad_right customer_ref 16
    ++ pad_right [] 10
    ++ pad_right [] 105
    ++ pad_right [] 105
    ++ pad_right [] 440).take 1055

/-- One spreadsheet row.  Fields subject to the `dropna` filters are
 `Option`; `accountNumber` holds the Python `str()` of the cell and
 `amount` holds the binary64 the cell contains. -/
structure Row where
  no : Option (List Nat)
  recipient : Option (List Nat)
  email : List Nat
  bank : List Nat
  accountName : List Nat
  accountNumber : Option (List Nat)
  amount : Option FVal
deriving DecidableEq

def defaultRow : Row :=
  ⟨none, none, [], [], [], none, none⟩

/-- The bank-name → BIC table (convert_to_uob.py:13-23). -/
def BANK_MAPPING : List (List Nat × List Nat) :=
  [ (ascii "DBS/POSB - 7171", ascii "DBSSSGSGXXX")
  , (ascii "OCBC - 7339", ascii "OCBCSGSGXXX")
  , (ascii "UOB - 7375", ascii "UOVBSGSGXXX")
  , (ascii "Standard Chartered - 9496", ascii "SCBLSGSGXXX")
  , (ascii "HSBC - 7232", ascii "HSBCSGSGXXX")
  , (ascii "Citibank - 7214", ascii "CITISGSGXXX")
  , (ascii "Maybank - 7302", ascii "MBBESGSGXXX")
  , (ascii "Maybank Singapore Limited - 7302", ascii "MBBESGSGXXX")
  , (ascii "Bank of China - 7366", ascii "BKCHSGSGXXX") ]

/-- `BANK_MAPPING.get(row['Bank'], 'DBSSSGSGXXX')`. -/
def bankLookup (bank : List Nat) : List Nat :=
  ((BANK_MAPPING.find? (fun p => p.1 == bank)).map (fun p => p.2)).getD
    (ascii "DBSSSGSGXXX")

/-- Python `str.replace('.0', '')` (leftmost, non-overlapping). -/
def replaceDot0 : List Nat → List Nat
  | [] => []
  | 46 :: 48 :: rest => replaceDot0 rest
  | c :: rest => c :: replaceDot0 rest

/-- Python `str.replace('.', '')`. -/
def replaceDot : List Nat → List Nat
  | [] => []
  | 46 :: rest => replaceDot rest
  | c :: rest => c :: replaceDot rest

/-- `create_detail_record` (convert_to_uob.py:136-182). -/
def create_detail_record (row : Row) (seq_num : Nat) : List Nat :=
  (ascii "2"
    ++ pad_right (bankLookup row.bank) 11
    ++ pad_right (replaceDot (replaceDot0 (row.accountNumber.getD []))) 34
    ++ pad_right (row.accountName.take 140) 140
    ++ ascii "SGD"
    ++ format_amount (row.amount.getD fzero)
    ++ pad_right (ascii "REF" ++ zfill 4 (natStr seq_num)) 35
    ++ pad_right [] 35
    ++ ascii "OTHR"
    ++ pad_right (ascii "SOFPLS SCHOLARSHIP") 140
    ++ pad_right [] 140
    ++ pad_right [] 16
    ++ ascii "Y"
    ++ ascii " "
    ++ ascii "E"
    ++ pad_right [] 2
    ++ ascii "2"
    ++ pad_right ((row.recipient.getD []).take 35) 35
    ++ pad_right [] 35
    ++ pad_right [] 35
    ++ pad_right [] 35
    ++ pad_right [] 35
    ++ pad_right [] 35
    ++ pad_right [] 35
    ++ pad_right [] 35
    ++ pad_right [] 17
    ++ pad_right [] 3
    ++ pad_right [] 15
    ++ pad_right (row.email.take 50) 50
    ++ pad_right [] 20
    ++ pad_right [] 35
    ++ pad_right [] 35
    ++ pad_right [] 17).take 1055

/-- `create_trailer_record` (convert_to_uob.py:184-193).  The hash total is
 appended raw. -/
def create_trailer_record (total_amount : FVal) (total_count : Nat)
    (hash_total : List Nat) : List Nat :=
  (ascii "9"
    ++ format_amount total_amount
    ++ pad_left_zero total_count 7
    ++ hash_total
    ++ pad_right [] 1013).take 1055

/-! ## Batch processing (app.py:54-115) -/

structure PyDate where
  year : Nat
  month : Nat
  day : Nat
deriving DecidableEq

/-- `strftime('%Y%m%d')` (exact for 1000 ≤ year ≤ 9999). -/
def fmtYYYYMMDD (d : PyDate) : List Nat :=
  zfill 4 (natStr d.year) ++ zfill 2 (natStr d.month) ++ zfill 2 (natStr d.day)

/-- `strftime('%d%m')`. -/
def fmtDDMM (d : PyDate) : List Nat :=
  zfill 2 (natStr d.day) ++ zfill 2 (natStr d.month)

/-- The two `dropna` calls (app.py:62-64): rows surviving the filter, paired
 with their original 0-based dataframe index labels, which `iterrows`
 later yields as `idx`. -/
def cleanRows (df : List Row) : List (Nat × Row) :=
  df.enum.filter (fun p =>
    p.2.recipient.isSome && p.2.accountNumber.isSome && p.2.amount.isSome
      && p.2.no.isSome)

/-- The detail-record loop of `process_excel_to_uob` (app.py:88-96),
 including `seq_num = idx + 1` and the remittance-information override
 `detail_record[:281] + pad_right(payment_desc, 140) + detail_record[421:]`. -/
def buildDetails (df : List Row) (payment_desc : List Nat) : List (List Nat) :=
  (cleanRows df).map (fun p =>
    let r := create_detail_record p.2 (p.1 + 1)
    r.take 281 ++ pad_right payment_desc 140 ++ r.drop 421)

/-- `total_amount` accumulation (app.py:86,97): float addition, left to
 right, starting from 0. -/
def batchTotal (df : List Row) : FVal :=
  (cleanRows df).foldl (fun acc p => fadd acc (p.2.amount.getD fzero)) fzero

/-- `process_excel_to_uob` (app.py:54-115).  `now` is the ambient clock used
 only when `value_date_override` is absent.  Returns
 `(output_content, file_name, total_amount, record_count, hash_total)`. -/
def process_excel_to_uob (df : List Row)
    (org_name org_account org_bic customer_ref payment_desc : List Nat)
    (processing_mode : Nat) (value_date_override : Option PyDate)
    (now : PyDate) : List Nat × List Nat × FVal × Nat × List Nat :=
  let specific_date := value_date_override.getD now
  let creation_date_long := fmtYYYYMMDD specific_date
  let value_date := creation_date_long
  let file_name := ascii "UGAI" ++ fmtDDMM specific_date ++ ascii "00"
  let header_record := create_header_record_custom file_name creation_date_long
    value_date org_name org_account org_bic customer_ref processing_mode
  let detail_records := buildDetails df payment_desc
  let total_amount := batchTotal df
  let hash_total := calculate_hash_total header_record detail_records
  let trailer_record := create_trailer_record total_amount
    detail_records.length hash_total
  let output_content := (header_record ++ crlf)
      ++ (detail_records.map (fun r => r ++ crlf)).flatten
      ++ (trailer_record ++ crlf)
  (output_content, file_name, total_amount, detail_records.length, hash_total)

/-! ## The hash-total algorithm as the specification words it

These definitions follow the spec text (spec.md §4.3) rather than the
source loop: `fieldCheckSummary` is an indexed sum, the rotating multiplier
is given in closed form per record index, and the per-record contributions
are summed over the record indices. -/

/-- `fieldCheckSummary(fieldBytes, limit)` as worded by the spec: the sum
 over `i` from 0 to `min(len, limit) - 1` of `(i+1) * asciiCode(fieldBytes[i])`. -/
def fieldCheckSummarySpec (fieldBytes : List Nat) (limit : Nat) : Nat :=
  ∑ i ∈ Finset.range (min fieldBytes.length limit), (i + 1) * fieldBytes.getD i 0

/-- The spec's multiplier update: increment by 1, but reset to 1 whenever it
 would reach 10. -/
def specStep (h : Nat) : Nat := if h + 1 = 10 then 1 else h + 1

/-- Multiplier used for the k-th (0-based) detail record, starting the
 rotation at 0 as the spec prescribes. -/
def specHashCodeAt : Nat → Nat
  | 0 => specStep 0
  | k + 1 => specStep (specHashCodeAt k)

/-- `calculateHashTotal` as the spec (and claim C1) word it. -/
def calculateHashTotalSpec (header_record : List Nat)
    (detail_records : List (List Nat)) : List Nat :=
  let total1 := fieldCheckSummarySpec (pySlice header_record 35 46) 11
      + fieldCheckSummarySpec (pySlice header_record 49 83) 34
      + fieldCheckSummarySpec (pySlice header_record 83 223) 140
  let pb := header_record.getD 11 0
  let paymentCode := if pb = 80 then 20 else if pb = 82 then 22 else 30
  let total2 := ∑ k ∈ Finset.range detail_records.length,
      (fieldCheckSummarySpec (pySlice (detail_records.getD k []) 7 18) 11
        + fieldCheckSummarySpec (pySlice (detail_records.getD k []) 18 52) 34
            * specHashCodeAt k
        + fieldCheckSummarySpec (pySlice (detail_records.getD k []) 52 192) 140
            * specHashCodeAt k
        + fieldCheckSummarySpec (pySlice (detail_records.getD k []) 186 189) 3
        + fieldCheckSummarySpec (pySlice (detail_records.getD k []) 189 207) 18
        + fieldCheckSummarySpec (pySlice (detail_records.getD k []) 277 281) 4
        + paymentCode * specHashCodeAt k)
  zfill 16 (lastTake 16 (natStr (total1 + total2)))

/-- Value of `hash_code` when the k-th (0-based) detail record is processed
 by `detailLoop` started from `h`. -/
def hashCodeFrom (h : Nat) : Nat → Nat
  | 0 => hashStep h
  | k + 1 => hashStep (hashCodeFrom h k)

/-- Value of `hash_code` when the k-th (0-based) detail record is processed
 by `calculate_hash_total` (which starts the accumulator at 0). -/
def hashCodeAt : Nat → Nat := hashCodeFrom 0

/-- Pairwise agreement of two detail records on exactly the byte slices the
 checksum engine reads. -/
def sliceAgree (r s : List Nat) : Prop :=
  pySlice r 7 18 = pySlice s 7 18 ∧ pySlice r 18 52 = pySlice s 18 52
    ∧ pySlice r 52 192 = pySlice s 52 192 ∧ pySlice r 186 189 = pySlice s 186 189
    ∧ pySlice r 189 207 = pySlice s 189 207 ∧ pySlice r 277 281 = pySlice s 277 281

/-- A complete example row (all critical columns present): recipient JOHN
 TAN, UOB account 987654 (with the `.0` artefact of numeric parsing),
 amount the binary64 for 100.0. -/
def rowFull : Row :=
  ⟨some (ascii "1"), some (ascii "JOHN TAN"), ascii "j@x.com", ascii "UOB - 7375",
    ascii "JOHN TAN", some (ascii "987654.0"), some (floatOfDec 100 1)⟩

/-- A row whose `Amount` cell is NaN: dropped by the `dropna` filter. -/
def rowNoAmount : Row :=
  ⟨some (ascii "2"), some (ascii "NO AMOUNT"), [], [], [], some (ascii "123"), none⟩

/-- Example value date for concrete batch runs. -/
def egDate : PyDate := ⟨2025, 12, 31⟩

/-- The header record of an example empty batch. -/
def egHeaderRec : List Nat :=
  create_header_record_custom (ascii "UGAI" ++ fmtDDMM egDate ++ ascii "00")
    (fmtYYYYMMDD egDate) (fmtYYYYMMDD egDate) (ascii "ACME") (ascii "123")
    (ascii "UOVBSGSGXXX") (ascii "REF1") 66

/-- The trailer record of that example empty batch. -/
def egTrailerRec : List Nat :=
  create_trailer_record fzero 0 (calculate_hash_total egHeaderRec [])

/-! ## Basic length and digit lemmas -/

lemma length_pad_right (t : List Nat) (n : Nat) : (pad_right t n).length = n := by
  simp only [pad_right, List.length_append, List.length_take, List.length_replicate]
  omega

lemma length_zfill (w : Nat) (s : List Nat) : (zfill w s).length = max w s.length := by
  simp only [zfill, List.length_append, List.length_replicate]
  omega

lemma digitsAux_eq : ∀ fuel n : Nat, n ≤ fuel →
    digitsAux fuel n = (Nat.digits 10 n).reverse := by
  intro fuel
  induction fuel with
  | zero =>
    intro n hn
    interval_cases n
    simp [digitsAux]
  | succ f ih =>
    intro n hn
    by_cases h0 : n = 0
    · simp [digitsAux, h0]
    · have hpos : 0 < n := Nat.pos_of_ne_zero h0
      have hdiv : n / 10 ≤ f := by omega
      rw [digitsAux, if_neg h0, ih _ hdiv,
        Nat.digits_def' (show (1 : Nat) < 10 by norm_num) hpos, List.reverse_cons]

lemma digitsB_eq (n : Nat) : digitsB n = (Nat.digits 10 n).reverse :=
  digitsAux_eq n n le_rfl

lemma length_natStr_pos (n : Nat) : 1 ≤ (natStr n).length := by
  by_cases h : n = 0
  · simp [natStr, h]
  · have : Nat.digits 10 n ≠ [] := Nat.digits_ne_nil_iff_ne_zero.mpr h
    simp only [natStr, if_neg h, List.length_map, digitsB_eq, List.length_reverse]
    cases hd : Nat.digits 10 n with
    | nil => exact absurd hd this
    | cons a l => simp

lemma length_natStr_le {n w : Nat} (hw : 1 ≤ w) (h : n < 10 ^ w) :
    (natStr n).length ≤ w := by
  by_cases h0 : n = 0
  · simp [natStr, h0, hw]
  · simp only [natStr, if_neg h0, List.length_map, digitsB_eq, List.length_reverse]
    rw [Nat.digits_len 10 n (by norm_num) h0]
    have := (Nat.lt_pow_iff_log_lt (show (1 : Nat) < 10 by norm_num) h0).mp h
    omega

lemma length_natStr_ge {n w : Nat} (h : 10 ^ w ≤ n) : w + 1 ≤ (natStr n).length := by
  have hp : 0 < 10 ^ w := pow_pos (by norm_num) w
  have h0 : n ≠ 0 := by omega
  simp only [natStr, if_neg h0, List.length_map, digitsB_eq, List.length_reverse]
  rw [Nat.digits_len 10 n (by norm_num) h0]
  have := (Nat.pow_le_iff_le_log (by norm_num) h0).mp h
  omega

lemma length_format_amount_ge (x : FVal) : 18 ≤ (format_amount x).length := by
  simp only [format_amount, pad_left_zero, length_zfill]
  omega

lemma length_format_amount {x : FVal} (h : ftrunc (fmul100 x) < 10 ^ 18) :
    (format_amount x).length = 18 := by
  have := length_natStr_le (show (1 : Nat) ≤ 18 by norm_num) h
  simp only [format_amount, pad_left_zero, length_zfill]
  omega

lemma foldl_dec_replicate (k : Nat) :
    List.foldl (fun a c => a * 10 + (c - 48)) 0 (List.replicate k 48) = 0 := by
  induction k with
  | zero => rfl
  | succ j ih => simpa [List.replicate_succ] using ih

lemma foldl_dec_horner (ds : List Nat) : ∀ acc : Nat,
    List.foldl (fun a c => a * 10 + (c - 48)) acc (ds.map (fun d => d + 48))
      = acc * 10 ^ ds.length + Nat.ofDigits 10 ds.reverse := by
  induction ds with
  | nil => intro acc; simp [Nat.ofDigits_nil]
  | cons d tl ih =>
    intro acc
    simp only [List.map_cons, List.foldl_cons, Nat.add_sub_cancel, ih,
      List.reverse_cons, Nat.ofDigits_append, List.length_cons,
      List.length_reverse, Nat.ofDigits_singleton]
    ring

lemma decDigits_natStr (n : Nat) : decDigits (natStr n) = n := by
  by_cases h : n = 0
  · simp [decDigits, natStr, h]
  · simp only [decDigits, natStr, if_neg h, foldl_dec_horner, digitsB_eq,
      List.reverse_reverse, Nat.ofDigits_digits, Nat.zero_mul, Nat.zero_add]

lemma decDigits_zfill (w : Nat) (s : List Nat) : decDigits (zfill w s) =
    List.foldl (fun a c => a * 10 + (c - 48)) 0 s := by
  simp only [decDigits, zfill, List.foldl_append, foldl_dec_replicate]

/-! ## Claims C2 and C4 -/

/-- Refutation of C2's universal round-trip: 0.29 is a whole-cent amount
 (29 cents), yet `format_amount` on the binary64 the program holds for 0.29
 yields 28 cents (`int(0.29 * 100) == 28` in Python), not 29. -/
theorem C2_counterexample :
    format_amount (floatOfDec 29 100) = pad_left_zero 28 18
      ∧ format_amount (floatOfDec 29 100) ≠ pad_left_zero 29 18 := by
  constructor
  · decide
  · decide

/-- C2 (amended): `format_amount` multiplies the binary64 amount by 100,
 truncates, and zero-pads; the result has exactly 18 digits whenever the
 cent value fits in 18 digits, and `format_amount(12.34)` is the 18-digit
 string "000000000000001234".  (The universal whole-cent round-trip fails,
 e.g. at 0.29.) -/
theorem C2_amended :
    format_amount (floatOfDec 1234 100) = ascii "000000000000001234"
      ∧ ∀ x : FVal, ftrunc (fmul100 x) < 10 ^ 18 → (format_amount x).length = 18 := by
  refine ⟨by decide, fun x hx => length_format_amount hx⟩

theorem C2_witness :
    ftrunc (fmul100 (floatOfDec 29 100)) < 10 ^ 18
      ∧ (format_amount (floatOfDec 29 100)).length = 18 :=
  ⟨by decide, C2_amended.2 _ (by decide)⟩

/-- Refutation of C4: `pad_left_zero(123, 2)` neither raises a domain error
 nor returns a width-2 string — it returns the 3-character string "123". -/
theorem C4_counterexample :
    pad_left_zero 123 2 = ascii "123" ∧ (pad_left_zero 123 2).length ≠ 2 := by
  constructor
  · decide
  · decide

/-- C4 (amended): `pad_left_zero(n, w)` left-pads the decimal digits of `n`
 with `'0'` to length `max w (len (str n))`: exactly `w` digits whenever `n`
 fits in `w` digits (`w ≥ 1`), and it never truncates — the digits always
 decode back to `n`.  But when `n` needs more than `w` digits it silently
 returns the longer string instead of raising a domain error. -/
theorem C4_amended (n w : Nat) :
    decDigits (pad_left_zero n w) = n
      ∧ (pad_left_zero n w).length = max w (natStr n).length
      ∧ (1 ≤ w → n < 10 ^ w → (pad_left_zero n w).length = w) := by
  refine ⟨?_, length_zfill w (natStr n), fun hw hn => ?_⟩
  · rw [pad_left_zero, decDigits_zfill]
    exact decDigits_natStr n
  · have := length_natStr_le hw hn
    rw [pad_left_zero, length_zfill]
    omega

theorem C4_witness :
    decDigits (pad_left_zero 7 3) = 7 ∧ (pad_left_zero 7 3).length = 3 :=
  ⟨(C4_amended 7 3).1, (C4_amended 7 3).2.2 (by decide) (by decide)⟩

/-! ## The detail loop and the rotating multiplier (claims C1, C6) -/

lemma hashCodeFrom_step (h : Nat) : ∀ k, hashCodeFrom (hashStep h) k = hashCodeFrom h (k + 1) := by
  intro k
  induction k with
  | zero => rfl
  | succ j ih => show hashStep _ = hashStep _; rw [ih]

lemma detailLoop_eq_sum (pc : Nat) : ∀ (rs : List (List Nat)) (h : Nat),
    detailLoop pc h rs = ∑ k ∈ Finset.range rs.length,
      detailContribution pc (hashCodeFrom h k) (rs.getD k []) := by
  intro rs
  induction rs with
  | nil => intro h; simp [detailLoop]
  | cons r tl ih =>
    intro h
    rw [detailLoop, ih (hashStep h), List.length_cons, Finset.sum_range_succ']
    simp only [List.getD_cons_succ, hashCodeFrom_step]
    rw [Nat.add_comm]
    rfl

lemma hashCodeAt_bounds : ∀ k, 1 ≤ hashCodeAt k ∧ hashCodeAt k ≤ 9 := by
  intro k
  induction k with
  | zero => exact ⟨le_refl 1, by norm_num [hashCodeAt, hashCodeFrom, hashStep]⟩
  | succ j ih =>
    show 1 ≤ hashStep (hashCodeAt j) ∧ hashStep (hashCodeAt j) ≤ 9
    unfold hashStep
    split
    · exact ⟨le_refl 1, by norm_num⟩
    · omega

lemma specStep_eq_hashStep (h : Nat) : specStep h = hashStep h := by
  simp only [specStep, hashStep]
  split_ifs <;> omega

lemma specHashCodeAt_eq : ∀ k, specHashCodeAt k = hashCodeAt k := by
  intro k
  induction k with
  | zero => rw [specHashCodeAt, specStep_eq_hashStep]; rfl
  | succ j ih => rw [specHashCodeAt, specStep_eq_hashStep, ih]; rfl

lemma cfs_eq_spec (field : List Nat) (hi : Nat) :
    compute_field_check_summary field hi = fieldCheckSummarySpec field hi := by
  suffices h : ∀ (n a : Nat),
      (List.range n).foldl (fun total i => total + (i + 1) * field.getD i 0) a
        = a + ∑ i ∈ Finset.range n, (i + 1) * field.getD i 0 by
    simpa [compute_field_check_summary, fieldCheckSummarySpec] using
      h (min field.length hi) 0
  intro n
  induction n with
  | zero => simp
  | succ j ih =>
    intro a
    rw [List.range_succ, List.foldl_append, ih, Finset.sum_range_succ]
    simp [Nat.add_assoc]

/-- C6: the rotating multiplier `hash_code` used by `calculate_hash_total`
 starts at 0 and is stepped by `hashStep` (increment, resetting to 1 instead
 of reaching 10) before each record, so the multiplier applied to the k-th
 record is `hashCodeAt k`; it is never 0, and for a batch of 11 detail
 records the successive values are 1,2,3,4,5,6,7,8,9,1,2. -/
theorem C6_hash_code_rotation :
    ((List.range 11).map hashCodeAt = [1, 2, 3, 4, 5, 6, 7, 8, 9, 1, 2])
      ∧ (∀ k, hashCodeAt k ≠ 0)
      ∧ (∀ pc rs, detailLoop pc 0 rs
          = ∑ k ∈ Finset.range rs.length,
              detailContribution pc (hashCodeAt k) (rs.getD k [])) :=
  ⟨by decide, fun k => by have := (hashCodeAt_bounds k).1; omega,
    fun pc rs => detailLoop_eq_sum pc rs 0⟩

/-- C1: `calculate_hash_total` as implemented (loop with a mutable rotating
 accumulator, field-check summaries computed by an accumulating loop) equals
 the documented algorithm as the specification words it (indexed sums over
 the documented byte slices, closed-form multiplier sequence, payment code
 20/22/30 by the header's payment-type byte). -/
theorem C1_hash_total_matches_documented_algorithm
    (header_record : List Nat) (detail_records : List (List Nat)) :
    calculate_hash_total header_record detail_records
      = calculateHashTotalSpec header_record detail_records := by
  have hsum : finalSum header_record detail_records
      = (fieldCheckSummarySpec (pySlice header_record 35 46) 11
          + fieldCheckSummarySpec (pySlice header_record 49 83) 34
          + fieldCheckSummarySpec (pySlice header_record 83 223) 140)
        + ∑ k ∈ Finset.range detail_records.length,
            (fieldCheckSummarySpec (pySlice (detail_records.getD k []) 7 18) 11
              + fieldCheckSummarySpec (pySlice (detail_records.getD k []) 18 52) 34
                  * specHashCodeAt k
              + fieldCheckSummarySpec (pySlice (detail_records.getD k []) 52 192) 140
                  * specHashCodeAt k
              + fieldCheckSummarySpec (pySlice (detail_records.getD k []) 186 189) 3
              + fieldCheckSummarySpec (pySlice (detail_records.getD k []) 189 207) 18
              + fieldCheckSummarySpec (pySlice (detail_records.getD k []) 277 281) 4
              + (if header_record.getD 11 0 = 80 then 20
                  else if header_record.getD 11 0 = 82 then 22 else 30)
                  * specHashCodeAt k) := by
    rw [finalSum, headerTotal, detailLoop_eq_sum]
    simp only [detailContribution, cfs_eq_spec, payment_code_of, specHashCodeAt_eq,
      hashCodeAt]
  rw [calculate_hash_total, calculateHashTotalSpec, hsum]

/-! ## The 16-digit reduction (claim C7) -/

lemma digitsB_cons {n : Nat} (h : n ≠ 0) : digitsB n = digitsB (n / 10) ++ [n % 10] := by
  rw [digitsB_eq, digitsB_eq,
    Nat.digits_def' (show (1 : Nat) < 10 by norm_num) (Nat.pos_of_ne_zero h),
    List.reverse_cons]

lemma digitsB_zero : digitsB 0 = [] := rfl

lemma digitsB_lt {n : Nat} : ∀ d ∈ digitsB n, d < 10 := by
  intro d hd
  rw [digitsB_eq, List.mem_reverse] at hd
  exact Nat.digits_lt_base (by norm_num) hd

lemma length_digitsB_le {n k : Nat} (h : n < 10 ^ k) : (digitsB n).length ≤ k := by
  by_cases h0 : n = 0
  · simp [h0, digitsB_zero]
  · rw [digitsB_eq, List.length_reverse, Nat.digits_len 10 n (by norm_num) h0]
    have := (Nat.lt_pow_iff_log_lt (show (1 : Nat) < 10 by norm_num) h0).mp h
    omega

/-- Splitting the decimal digits of `n ≥ 10^k` at position `k`: the digit
 string of `n` is the digit string of `n / 10^k` followed by the digit
 string of `n % 10^k` left-padded with zeros to width `k`. -/
lemma digitsB_split : ∀ k n : Nat, 10 ^ k ≤ n →
    digitsB n = digitsB (n / 10 ^ k)
      ++ (List.replicate (k - (digitsB (n % 10 ^ k)).length) 0
          ++ digitsB (n % 10 ^ k)) := by
  intro k
  induction k with
  | zero => intro n _; simp [digitsB_zero, Nat.mod_one, Nat.div_one]
  | succ k ih =>
    intro n hn
    have hten : (0 : Nat) < 10 ^ (k + 1) := pow_pos (by norm_num) _
    have h0 : n ≠ 0 := by omega
    have hdivk : 10 ^ k ≤ n / 10 := by
      rw [Nat.le_div_iff_mul_le (by norm_num)]
      calc 10 ^ k * 10 = 10 ^ (k + 1) := (pow_succ 10 k).symm
        _ ≤ n := hn
    have hpow : (10 : Nat) ^ (k + 1) = 10 * 10 ^ k := by
      rw [pow_succ, Nat.mul_comm]
    have hdd : n / 10 / 10 ^ k = n / 10 ^ (k + 1) := by
      rw [Nat.div_div_eq_div_mul, ← hpow]
    have hmod : n % 10 ^ (k + 1) = n % 10 + 10 * (n / 10 % 10 ^ k) := by
      rw [hpow, Nat.mod_mul]
    set R := n % 10 ^ (k + 1) with hR
    set Rp := n / 10 % 10 ^ k with hRp
    have hRlen : (digitsB Rp).length ≤ k :=
      length_digitsB_le (Nat.mod_lt _ (pow_pos (by norm_num) k))
    have key : List.replicate (k + 1 - (digitsB R).length) 0 ++ digitsB R
        = (List.replicate (k - (digitsB Rp).length) 0 ++ digitsB Rp) ++ [n % 10] := by
      by_cases hRp0 : Rp = 0
      · have hRsmall : R = n % 10 := by rw [hmod, hRp0]; ring
        by_cases hnm : n % 10 = 0
        · rw [hRsmall, hnm, hRp0, digitsB_zero]
          simp [List.replicate_succ']
        · have : digitsB R = [n % 10] := by
            rw [hRsmall, digitsB_cons hnm,
              Nat.div_eq_of_lt (Nat.mod_lt _ (by norm_num)),
              Nat.mod_mod_of_dvd _ dvd_rfl, digitsB_zero, List.nil_append]
          rw [this, hRp0, digitsB_zero]
          simp [List.replicate_succ']
      · have hRge : 10 ≤ R := by
          have : 1 ≤ Rp := Nat.pos_of_ne_zero hRp0
          omega
        have hR0 : R ≠ 0 := by omega
        have hRdiv : R / 10 = Rp := by omega
        have hRmod : R % 10 = n % 10 := by omega
        rw [digitsB_cons hR0, hRdiv, hRmod, List.length_append, List.length_cons,
          List.length_nil]
        have : k + 1 - ((digitsB Rp).length + (0 + 1)) = k - (digitsB Rp).length := by
          omega
        rw [this, ← List.append_assoc]
    rw [digitsB_cons h0, ih (n / 10) hdivk, hdd, List.append_assoc, ← key]

/-- `str(N)[-16:].zfill(16)` equals `str(N % 10^16).zfill(16)`. -/
lemma lastTake_zfill_eq_mod (N : Nat) :
    zfill 16 (lastTake 16 (natStr N)) = pad_left_zero (N % 10 ^ 16) 16 := by
  by_cases h : N < 10 ^ 16
  · have hlen : (natStr N).length ≤ 16 :=
      length_natStr_le (show (1 : Nat) ≤ 16 by norm_num) h
    have : (natStr N).length - 16 = 0 := by omega
    rw [pad_left_zero, Nat.mod_eq_of_lt h, lastTake, this, List.drop_zero]
  · push_neg at h
    have h0 : N ≠ 0 := by
      have : (0 : Nat) < 10 ^ 16 := pow_pos (by norm_num) _
      omega
    set R := N % 10 ^ 16 with hR
    have hRlt : R < 10 ^ 16 := Nat.mod_lt _ (pow_pos (by norm_num) _)
    have hRlen : (digitsB R).length ≤ 16 := length_digitsB_le hRlt
    have hsplit := digitsB_split 16 N h
    rw [← hR] at hsplit
    have hmap : natStr N = (digitsB (N / 10 ^ 16)).map (fun d => d + 48)
        ++ (List.replicate (16 - (digitsB R).length) 48
            ++ (digitsB R).map (fun d => d + 48)) := by
      rw [natStr, if_neg h0, hsplit]
      simp [List.map_replicate]
    have hpadlen : (List.replicate (16 - (digitsB R).length) 48
        ++ (digitsB R).map (fun d => d + 48)).length = 16 := by
      simp only [List.length_append, List.length_replicate, List.length_map]
      omega
    have hlast : lastTake 16 (natStr N)
        = List.replicate (16 - (digitsB R).length) 48
            ++ (digitsB R).map (fun d => d + 48) := by
      rw [lastTake, hmap]
      rw [List.length_append, hpadlen]
      have : (digitsB (N / 10 ^ 16)).map (fun d => d + 48) ++
          (List.replicate (16 - (digitsB R).length) 48
            ++ (digitsB R).map (fun d => d + 48)) =
          ((digitsB (N / 10 ^ 16)).map (fun d => d + 48)) ++
          (List.replicate (16 - (digitsB R).length) 48
            ++ (digitsB R).map (fun d => d + 48)) := rfl
      rw [this]
      have hdroplen : ((digitsB (N / 10 ^ 16)).map (fun d => d + 48)).length + 16 - 16
          = ((digitsB (N / 10 ^ 16)).map (fun d => d + 48)).length := by omega
      rw [hdroplen, List.drop_left]
    rw [hlast, pad_left_zero]
    by_cases hR0 : R = 0
    · rw [hR0]
      decide
    · rw [natStr, if_neg hR0, zfill, zfill]
      simp only [List.length_append, List.length_replicate, List.length_map]
      have h1 : 16 - (16 - (digitsB R).length + (digitsB R).length) = 0 := by omega
      rw [h1, List.replicate_zero, List.nil_append]

lemma natStr_mem_digit {n c : Nat} (h : c ∈ natStr n) : 48 ≤ c ∧ c ≤ 57 := by
  by_cases h0 : n = 0
  · rw [natStr, if_pos h0] at h
    simp only [List.mem_singleton] at h
    omega
  · rw [natStr, if_neg h0, List.mem_map] at h
    obtain ⟨d, hd, rfl⟩ := h
    have := digitsB_lt d hd
    omega

/-- C7: the hash total string always has exactly 16 characters, all decimal
 digits, and equals the least-significant 16 digits of the non-negative
 integer accumulator `finalSum`, left-zero-padded. -/
theorem C7_hash_total_shape (header_record : List Nat)
    (detail_records : List (List Nat)) :
    (calculate_hash_total header_record detail_records).length = 16
      ∧ (∀ c ∈ calculate_hash_total header_record detail_records,
          48 ≤ c ∧ c ≤ 57)
      ∧ calculate_hash_total header_record detail_records
          = pad_left_zero (finalSum header_record detail_records % 10 ^ 16) 16 := by
  refine ⟨?_, ?_, lastTake_zfill_eq_mod _⟩
  · rw [calculate_hash_total, length_zfill, lastTake, List.length_drop]
    omega
  · intro c hc
    rw [calculate_hash_total, zfill] at hc
    rcases List.mem_append.mp hc with hc | hc
    · have := List.eq_of_mem_replicate hc
      omega
    · exact natStr_mem_digit (List.mem_of_mem_drop hc)

/-! ## Hash total reads only the checksummed slices (claim C10) -/

lemma detailContribution_congr {pc h : Nat} {r s : List Nat} (hag : sliceAgree r s) :
    detailContribution pc h r = detailContribution pc h s := by
  obtain ⟨h1, h2, h3, h4, h5, h6⟩ := hag
  rw [detailContribution, detailContribution, h1, h2, h3, h4, h5, h6]

lemma detailLoop_congr (pc : Nat) : ∀ {d1 d2 : List (List Nat)},
    List.Forall₂ sliceAgree d1 d2 → ∀ h, detailLoop pc h d1 = detailLoop pc h d2 := by
  intro d1 d2 hf
  induction hf with
  | nil => intro h; rfl
  | cons hag _ ih =>
    intro h
    rw [detailLoop, detailLoop, detailContribution_congr hag, ih (hashStep h)]

lemma pySlice_take_append {r : List Nat} (x : List Nat) {a b : Nat}
    (hab : a ≤ b) (hb : b ≤ 281) (hr : 281 ≤ r.length) :
    pySlice (r.take 281 ++ x) a b = pySlice r a b := by
  have hlen : (r.take 281).length = 281 := by
    rw [List.length_take]
    omega
  rw [pySlice, pySlice, List.drop_append_of_le_length (by omega),
    List.take_append_of_le_length (by simp [List.length_drop, hlen]; omega),
    List.drop_take]
  have : min (b - a) (281 - a) = b - a := by omega
  rw [List.take_take, this]

lemma override_sliceAgree {r : List Nat} (desc : List Nat) (hr : 281 ≤ r.length) :
    sliceAgree (r.take 281 ++ pad_right desc 140 ++ r.drop 421) r := by
  rw [List.append_assoc]
  exact ⟨pySlice_take_append _ (by norm_num) (by norm_num) hr,
    pySlice_take_append _ (by norm_num) (by norm_num) hr,
    pySlice_take_append _ (by norm_num) (by norm_num) hr,
    pySlice_take_append _ (by norm_num) (by norm_num) hr,
    pySlice_take_append _ (by norm_num) (by norm_num) hr,
    pySlice_take_append _ (by norm_num) (by norm_num) hr⟩

/-- C10: the hash total depends only on the checksummed byte slices
 [7:18), [18:52), [52:192), [186:189), [189:207), [277:281) of the detail
 records (for the same header, detail lists agreeing pairwise on those
 slices hash identically); in particular the app's remittance-information
 override, which rewrites only bytes 281:421 of each (≥281-byte) detail
 record, never changes the hash total. -/
theorem C10_hash_reads_only_checksummed_slices :
    (∀ (header_record : List Nat) (d1 d2 : List (List Nat)),
        List.Forall₂ sliceAgree d1 d2 →
        calculate_hash_total header_record d1 = calculate_hash_total header_record d2)
      ∧ ∀ (header_record : List Nat) (ds : List (List Nat)) (payment_desc : List Nat),
          (∀ r ∈ ds, 281 ≤ r.length) →
          calculate_hash_total header_record
              (ds.map (fun r => r.take 281 ++ pad_right payment_desc 140 ++ r.drop 421))
            = calculate_hash_total header_record ds := by
  have hmain : ∀ (hr : List Nat) (d1 d2 : List (List Nat)),
      List.Forall₂ sliceAgree d1 d2 →
      calculate_hash_total hr d1 = calculate_hash_total hr d2 := by
    intro hr d1 d2 hf
    rw [calculate_hash_total, calculate_hash_total, finalSum, finalSum,
      detailLoop_congr _ hf]
  refine ⟨hmain, fun hr ds desc hlen => hmain hr _ ds ?_⟩
  induction ds with
  | nil => exact List.Forall₂.nil
  | cons r tl ih =>
    exact List.Forall₂.cons
      (override_sliceAgree desc (hlen r (List.mem_cons_self r tl)))
      (ih fun s hs => hlen s (List.mem_cons_of_mem r hs))

theorem C10_witness :
    (List.Forall₂ sliceAgree [List.replicate 281 65]
        [List.replicate 210 65 ++ [66] ++ List.replicate 70 65]
      ∧ calculate_hash_total [] [List.replicate 281 65]
          = calculate_hash_total []
              [List.replicate 210 65 ++ [66] ++ List.replicate 70 65])
      ∧ ((∀ r ∈ [List.replicate 281 65], 281 ≤ r.length)
        ∧ calculate_hash_total []
              ([List.replicate 281 65].map
                (fun r => r.take 281 ++ pad_right (ascii "PAY") 140 ++ r.drop 421))
            = calculate_hash_total [] [List.replicate 281 65]) := by
  have hf : List.Forall₂ sliceAgree [List.replicate 281 65]
      [List.replicate 210 65 ++ [66] ++ List.replicate 70 65] :=
    List.Forall₂.cons
      ⟨by decide, by decide, by decide, by decide, by decide, by decide⟩
      List.Forall₂.nil
  have hl : ∀ r ∈ [List.replicate 281 65], 281 ≤ r.length := by decide
  exact ⟨⟨hf, C10_hash_reads_only_checksummed_slices.1 _ _ _ hf⟩,
    ⟨hl, C10_hash_reads_only_checksummed_slices.2 _ _ _ hl⟩⟩

/-! ## Record lengths (claim C3) -/

lemma length_ascii_one : (ascii "1").length = 1 := by decide

lemma length_ascii_P : (ascii "P").length = 1 := by decide

lemma length_ascii_I : (ascii "I").length = 1 := by decide

lemma length_ascii_SGD : (ascii "SGD").length = 3 := by decide

lemma length_ascii_Y : (ascii "Y").length = 1 := by decide

lemma length_ascii_space : (ascii " ").length = 1 := by decide

lemma length_ascii_E : (ascii "E").length = 1 := by decide

lemma length_ascii_two : (ascii "2").length = 1 := by decide

lemma length_ascii_OTHR : (ascii "OTHR").length = 4 := by decide

lemma length_ascii_nine : (ascii "9").length = 1 := by decide

lemma length_create_header_record (f c v : List Nat) :
    (create_header_record f c v).length = min 1055 (1039 + c.length + v.length) := by
  rw [create_header_record, List.length_take]
  simp only [List.length_append, length_pad_right, length_ascii_one, length_ascii_P,
    length_ascii_I, length_ascii_SGD]
  omega

lemma length_create_header_record_custom
    (f c v oname oa ob cr : List Nat) (mode : Nat) :
    (create_header_record_custom f c v oname oa ob cr mode).length
      = min 1055 (1039 + c.length + v.length) := by
  rw [create_header_record_custom, List.length_take]
  simp only [List.length_append, length_pad_right, length_ascii_one, length_ascii_P,
    length_ascii_SGD, List.length_singleton]
  omega

lemma length_create_detail_record (row : Row) (seq_num : Nat) :
    (create_detail_record row seq_num).length = 1055 := by
  have hfa := length_format_amount_ge (row.amount.getD fzero)
  rw [create_detail_record, List.length_take]
  simp only [List.length_append, length_pad_right, length_ascii_two, length_ascii_SGD,
    length_ascii_OTHR, length_ascii_Y, length_ascii_space, length_ascii_E]
  omega

lemma length_create_trailer_record (ta : FVal) (tc : Nat) (ht : List Nat)
    (h : 16 ≤ ht.length) : (create_trailer_record ta tc ht).length = 1055 := by
  have hfa := length_format_amount_ge ta
  have hc : 7 ≤ (pad_left_zero tc 7).length := by
    rw [pad_left_zero, length_zfill]
    omega
  rw [create_trailer_record, List.length_take]
  simp only [List.length_append, length_pad_right, length_ascii_nine]
  omega

/-- Refutation of C3 as universally stated: the header builders append the
 creation/value date strings raw, so with empty date strings the built
 "record" has only 1039 characters, not 1055 (the final `[:1055]` can
 truncate but never extend). -/
theorem C3_counterexample :
    (create_header_record [] [] []).length ≠ 1055
      ∧ (create_header_record_custom [] [] [] [] [] [] [] 66).length ≠ 1055 := by
  constructor
  · decide
  · decide

/-- C3 (amended): every builder output is exactly 1055 characters provided
 the raw-appended inputs have their nominal widths — the header builders
 need 8-character creation and value dates, the trailer builder needs a
 16-character hash total; the detail builder yields 1055 characters for
 every input unconditionally. -/
theorem C3_amended :
    (∀ f c v, c.length = 8 → v.length = 8 →
        (create_header_record f c v).length = 1055)
      ∧ (∀ f c v oname oa ob cr mode, c.length = 8 → v.length = 8 →
          (create_header_record_custom f c v oname oa ob cr mode).length = 1055)
      ∧ (∀ row seq_num, (create_detail_record row seq_num).length = 1055)
      ∧ (∀ ta tc ht, ht.length = 16 →
          (create_trailer_record ta tc ht).length = 1055) := by
  refine ⟨fun f c v hc hv => ?_, fun f c v oname oa ob cr mode hc hv => ?_,
    length_create_detail_record, fun ta tc ht h => ?_⟩
  · rw [length_create_header_record, hc, hv]
    decide
  · rw [length_create_header_record_custom, hc, hv]
    decide
  · exact length_create_trailer_record ta tc ht (by omega)

theorem C3_witness :
    (create_header_record (ascii "UGAI010100") (ascii "20250101")
        (ascii "20250101")).length = 1055
      ∧ (create_header_record_custom (ascii "UGAI010100") (ascii "20250101")
          (ascii "20250101") (ascii "ACME") (ascii "123") (ascii "UOVBSGSGXXX")
          (ascii "REF1") 66).length = 1055
      ∧ (create_detail_record defaultRow 1).length = 1055
      ∧ (create_trailer_record fzero 0 (List.replicate 16 48)).length = 1055 :=
  ⟨C3_amended.1 _ _ _ (by decide) (by decide),
    C3_amended.2.1 _ _ _ _ _ _ _ _ (by decide) (by decide),
    C3_amended.2.2.1 _ _,
    C3_amended.2.2.2 _ _ _ (by decide)⟩

/-! ## Sequence numbers in the End-to-End ID (claim C5) -/

lemma pySlice_cons_seg {a rest : List Nat} {n m : Nat} (ha : a.length ≤ n) :
    pySlice (a ++ rest) n m = pySlice rest (n - a.length) (m - a.length) := by
  rw [pySlice, pySlice, List.drop_append_eq_append_drop,
    List.drop_eq_nil_of_le ha, List.nil_append]
  congr 1
  omega

lemma pySlice_take_1055 (L : List Nat) {a b : Nat} (hb : b ≤ 1055) :
    pySlice (L.take 1055) a b = pySlice L a b := by
  rw [pySlice, pySlice, List.drop_take, List.take_take]
  congr 1
  omega

/-- The End-to-End ID field of a built detail record: bytes [207:242) hold
 `'REF' + f-formatted seq_num (04d)` space-padded to 35, provided the
 amount field printed with its nominal 18 digits. -/
lemma e2e_slice (row : Row) (seq_num : Nat)
    (h : ftrunc (fmul100 (row.amount.getD fzero)) < 10 ^ 18) :
    pySlice (create_detail_record row seq_num) 207 242
      = pad_right (ascii "REF" ++ zfill 4 (natStr seq_num)) 35 := by
  have hfa : (format_amount (row.amount.getD fzero)).length = 18 :=
    length_format_amount h
  rw [create_detail_record, pySlice_take_1055 _ (by norm_num)]
  simp only [List.append_assoc]
  rw [pySlice_cons_seg (by simp only [length_ascii_two]; omega)]
  simp only [length_ascii_two]
  norm_num
  rw [pySlice_cons_seg (by simp only [length_pad_right]; omega)]
  simp only [length_pad_right]
  norm_num
  rw [pySlice_cons_seg (by simp only [length_pad_right]; omega)]
  simp only [length_pad_right]
  norm_num
  rw [pySlice_cons_seg (by simp only [length_pad_right]; omega)]
  simp only [length_pad_right]
  norm_num
  rw [pySlice_cons_seg (by simp only [length_ascii_SGD]; omega)]
  simp only [length_ascii_SGD]
  norm_num
  rw [pySlice_cons_seg (by simp only [hfa]; omega)]
  simp only [hfa]
  norm_num
  rw [pySlice, List.drop_zero, Nat.sub_zero,
    List.take_append_of_le_length (by simp only [length_pad_right]; omega),
    List.take_of_length_le (by simp only [length_pad_right]; omega)]

/-- Refutation of C5: with an invalid first spreadsheet row (missing
 Amount) followed by a valid row, the single built detail record carries
 sequence number 2 (its original dataframe index label + 1), not 1 (its
 1-based position in the cleaned list). -/
theorem C5_counterexample :
    pySlice ((buildDetails [rowNoAmount, rowFull] (ascii "PAY")).getD 0 []) 207 242
        = pad_right (ascii "REF0002") 35
      ∧ pad_right (ascii "REF0002") 35 ≠ pad_right (ascii "REF0001") 35 := by
  constructor
  · decide
  · decide

/-- C5 (amended): the sequence number embedded in the k-th built detail
 record's End-to-End ID is `idx + 1` where `idx` is the row's original
 0-based dataframe index label (`iterrows` yields the label, which survives
 the `dropna` filtering) — not the row's 1-based position in the cleaned
 list.  The two coincide exactly when no preceding row was filtered out. -/
theorem C5_amended (df : List Row) (payment_desc : List Nat) (k : Nat)
    (hk : k < (cleanRows df).length)
    (hamt : ∀ p ∈ cleanRows df,
      ftrunc (fmul100 (p.2.amount.getD fzero)) < 10 ^ 18) :
    pySlice ((buildDetails df payment_desc).getD k []) 207 242
      = pad_right (ascii "REF"
          ++ zfill 4 (natStr (((cleanRows df).getD k (0, defaultRow)).1 + 1))) 35 := by
  have hk2 : k < (buildDetails df payment_desc).length := by
    rw [buildDetails, List.length_map]
    exact hk
  rw [List.getD_eq_getElem _ _ hk2, List.getD_eq_getElem _ _ hk]
  simp only [buildDetails] at hk2 ⊢
  rw [List.getElem_map]
  have hmem : (cleanRows df)[k] ∈ cleanRows df := List.getElem_mem _
  have hlen : 281 ≤ (create_detail_record (cleanRows df)[k].2
      ((cleanRows df)[k].1 + 1)).length := by
    rw [length_create_detail_record]
    norm_num
  rw [List.append_assoc, pySlice_take_append _ (by norm_num) (by norm_num) hlen]
  exact e2e_slice _ _ (hamt _ hmem)

theorem C5_witness :
    (0 < (cleanRows [rowNoAmount, rowFull]).length
        ∧ ∀ p ∈ cleanRows [rowNoAmount, rowFull],
            ftrunc (fmul100 (p.2.amount.getD fzero)) < 10 ^ 18)
      ∧ pySlice ((buildDetails [rowNoAmount, rowFull] (ascii "PAY")).getD 0 []) 207 242
          = pad_right (ascii "REF"
              ++ zfill 4 (natStr
                (((cleanRows [rowNoAmount, rowFull]).getD 0 (0, defaultRow)).1 + 1))) 35 :=
  ⟨⟨by decide, by decide⟩,
    C5_amended [rowNoAmount, rowFull] (ascii "PAY") 0 (by decide) (by decide)⟩

/-! ## Empty batches and determinism (claims C8, C9) -/

lemma length_calculate_hash_total (header_record : List Nat)
    (detail_records : List (List Nat)) :
    (calculate_hash_total header_record detail_records).length = 16 := by
  rw [calculate_hash_total, length_zfill, lastTake, List.length_drop]
  omega

lemma format_amount_fzero : format_amount fzero = ascii "000000000000000000" := by
  decide

lemma pad_left_zero_zero_seven : pad_left_zero 0 7 = ascii "0000000" := by decide

lemma length_ascii_zeros18 : (ascii "000000000000000000").length = 18 := by decide

lemma length_fmtYYYYMMDD (d : PyDate) (hy : d.year ≤ 9999) (hm : d.month ≤ 99)
    (hd : d.day ≤ 99) : (fmtYYYYMMDD d).length = 8 := by
  have h1 := length_natStr_le (show (1 : Nat) ≤ 4 by norm_num)
    (show d.year < 10 ^ 4 by omega)
  have h2 := length_natStr_le (show (1 : Nat) ≤ 2 by norm_num)
    (show d.month < 10 ^ 2 by omega)
  have h3 := length_natStr_le (show (1 : Nat) ≤ 2 by norm_num)
    (show d.day < 10 ^ 2 by omega)
  simp only [fmtYYYYMMDD, List.length_append, length_zfill]
  omega

lemma trailer_amount_slice_zero (ht : List Nat) :
    pySlice (create_trailer_record fzero 0 ht) 1 19
      = ascii "000000000000000000" := by
  rw [create_trailer_record, pySlice_take_1055 _ (by norm_num)]
  simp only [List.append_assoc]
  rw [pySlice_cons_seg (by simp only [length_ascii_nine]; omega)]
  simp only [length_ascii_nine]
  norm_num
  rw [format_amount_fzero, pySlice, List.drop_zero, Nat.sub_zero,
    List.take_append_of_le_length (by rw [length_ascii_zeros18]),
    List.take_of_length_le (by rw [length_ascii_zeros18])]

lemma trailer_count_slice_zero (ht : List Nat) :
    pySlice (create_trailer_record fzero 0 ht) 19 26 = ascii "0000000" := by
  rw [create_trailer_record, pySlice_take_1055 _ (by norm_num)]
  simp only [List.append_assoc]
  rw [pySlice_cons_seg (by simp only [length_ascii_nine]; omega)]
  simp only [length_ascii_nine]
  norm_num
  rw [format_amount_fzero,
    pySlice_cons_seg (by simp only [length_ascii_zeros18]; omega)]
  simp only [length_ascii_zeros18]
  norm_num
  rw [pad_left_zero_zero_seven, pySlice, List.drop_zero, Nat.sub_zero,
    List.take_append_of_le_length (by decide),
    List.take_of_length_le (by decide)]

/-- C8: a batch whose cleaned instruction list is empty is processed without
 error into exactly two records — the 1055-character header, then the
 1055-character trailer — each followed by CRLF; the trailer's total-amount
 field (bytes 1:19) is "000000000000000000", its count field (bytes 19:26)
 is "0000000", and the reported record count is 0. -/
theorem C8_empty_batch (df : List Row)
    (org_name org_account org_bic customer_ref payment_desc : List Nat)
    (processing_mode : Nat) (o : Option PyDate) (now : PyDate)
    (hrec trec : List Nat)
    (hclean : cleanRows df = [])
    (hhrec : hrec = create_header_record_custom
        (ascii "UGAI" ++ fmtDDMM (o.getD now) ++ ascii "00")
        (fmtYYYYMMDD (o.getD now)) (fmtYYYYMMDD (o.getD now))
        org_name org_account org_bic customer_ref processing_mode)
    (htrec : trec = create_trailer_record fzero 0 (calculate_hash_total hrec []))
    (hy : (o.getD now).year ≤ 9999) (hm : (o.getD now).month ≤ 99)
    (hd : (o.getD now).day ≤ 99) :
    (process_excel_to_uob df org_name org_account org_bic customer_ref
        payment_desc processing_mode o now).1 = hrec ++ crlf ++ trec ++ crlf
      ∧ hrec.length = 1055
      ∧ trec.length = 1055
      ∧ pySlice trec 1 19 = ascii "000000000000000000"
      ∧ pySlice trec 19 26 = ascii "0000000"
      ∧ (process_excel_to_uob df org_name org_account org_bic customer_ref
          payment_desc processing_mode o now).2.2.2.1 = 0 := by
  subst hhrec
  subst htrec
  refine ⟨?_, ?_, ?_, trailer_amount_slice_zero _, trailer_count_slice_zero _, ?_⟩
  · simp only [process_excel_to_uob, buildDetails, batchTotal, hclean,
      List.map_nil, List.foldl_nil, List.flatten_nil, List.length_nil,
      List.nil_append, List.append_nil, List.append_assoc]
  · rw [length_create_header_record_custom, length_fmtYYYYMMDD _ hy hm hd]
    decide
  · exact length_create_trailer_record _ _ _ (by rw [length_calculate_hash_total])
  · simp only [process_excel_to_uob, buildDetails, batchTotal, hclean,
      List.map_nil, List.foldl_nil, List.flatten_nil, List.length_nil]

theorem C8_witness :
    (process_excel_to_uob [rowNoAmount] (ascii "ACME") (ascii "123")
        (ascii "UOVBSGSGXXX") (ascii "REF1") (ascii "PAY") 66 (some egDate)
        ⟨1, 1, 1⟩).1 = egHeaderRec ++ crlf ++ egTrailerRec ++ crlf
      ∧ egHeaderRec.length = 1055
      ∧ egTrailerRec.length = 1055
      ∧ pySlice egTrailerRec 1 19 = ascii "000000000000000000"
      ∧ pySlice egTrailerRec 19 26 = ascii "0000000"
      ∧ (process_excel_to_uob [rowNoAmount] (ascii "ACME") (ascii "123")
          (ascii "UOVBSGSGXXX") (ascii "REF1") (ascii "PAY") 66 (some egDate)
          ⟨1, 1, 1⟩).2.2.2.1 = 0 :=
  C8_empty_batch [rowNoAmount] (ascii "ACME") (ascii "123")
    (ascii "UOVBSGSGXXX") (ascii "REF1") (ascii "PAY") 66 (some egDate)
    ⟨1, 1, 1⟩ egHeaderRec egTrailerRec (by decide) rfl rfl (by decide)
    (by decide) (by decide)

/-- C9: the encoder is a pure function and, once the value date is fixed by
 the override, its output does not depend on the ambient clock: two runs on
 identical rows and organisation parameters with the same fixed date
 produce identical output tuples (content, filename, total, count, hash),
 whatever the wall-clock time of each run. -/
theorem C9_deterministic (df : List Row)
    (org_name org_account org_bic customer_ref payment_desc : List Nat)
    (processing_mode : Nat) (d : PyDate) (now1 now2 : PyDate) :
    process_excel_to_uob df org_name org_account org_bic customer_ref
        payment_desc processing_mode (some d) now1
      = process_excel_to_uob df org_name org_account org_bic customer_ref
          payment_desc processing_mode (some d) now2 := rfl

end UOB
